import Mathlib

/-!
Verification of the confidence-contour / likelihood-level-finding engine of
LensTools (`lenstools/contours.py`).  The Python code is shallowly embedded:
numpy arrays of floats become rational-valued data (`ℚ`), N-dimensional grids
become a shape together with a row-major data list, fallible operations return
`Except`/`Option`.  Every definition is translated from the source code of
`contours.py`; the few places where a numerical library routine (scipy,
numpy.testing) is involved are embedded by their exact mathematical
specialisation at the arguments the source uses, as documented at each
definition.
-/

deriving instance DecidableEq for Except

/-- Python `int()` applied to a float/rational: truncation toward zero
(floor for nonnegative arguments, ceiling for negative ones).  This is the
conversion the source uses in `ContourPlot.value`, `ContourPlot.point` and
`ContourPlot.slice` to turn a physical coordinate into a pixel index. -/
def pyInt (x : ℚ) : ℤ :=
  if 0 ≤ x then ⌊x⌋ else ⌈x⌉

/-- Errors surfaced by the engine.  The source raises Python exceptions
(`AssertionError` from plain asserts, the numpy testing assertion for the
normalization check, `IndexError` from out-of-range indexing, `KeyError`
from missing dict entries); the spec gives these taxonomy names
(`OutOfBoundsError`, `NotNormalizedError`, ...).  Each distinct failure
path of the source is given its own constructor. -/
inductive ContourError where
  /-- a plain Python `assert` fails (e.g. the `ndim == 2` check). -/
  | assertionError : ContourError
  /-- the `np.testing.assert_approx_equal(likelihood.sum(), 1.0)` check fails. -/
  | notNormalized : ContourError
  /-- the `assert slice_index < npoints` bound check in `slice` fails. -/
  | outOfBounds : ContourError
  /-- an `assert parameter in ...` membership check fails. -/
  | unknownParameter : ContourError
  /-- an uncaught `IndexError` (list/array index out of range). -/
  | indexError : ContourError
  /-- an uncaught `KeyError` (missing dict entry). -/
  | keyError : ContourError
deriving DecidableEq

/-- Maximum entry of a list of rationals, with 0 for the empty list.
Embeds `ndarray.max()`; the grids handled by the engine are nonempty with
nonnegative entries, where the two agree (numpy raises on an empty array). -/
def listMaxQ (l : List ℚ) : ℚ :=
  l.foldr max 0

/-- Minimum entry of a nonempty list of rationals (`headD 0` seed).
Embeds `ndarray.min()` on the nonempty arrays the engine handles. -/
def listMinQ (l : List ℚ) : ℚ :=
  l.foldr min (l.headD 0)

/-- Sum of the entries strictly greater than `value`: embeds
`likelihood[likelihood > value].sum()` from `getLikelihoodValues`. -/
def confIntegral (lik : List ℚ) (value : ℚ) : ℚ :=
  (lik.filter (fun x => decide (value < x))).sum

/-- Power-of-ten scale used by `np.testing.assert_approx_equal`:
`10 ** floor(log10 q)`, defined here for the arguments that check produces,
namely `q = (|desired| + |actual|)/2 ≥ 1/2` (desired is the constant `1.0`
and actual is a sum of nonnegative grid entries).  For `q < 1` the floor of
the base-10 logarithm is `-1`; for `q ≥ 1` it is `Nat.log 10 ⌊q⌋`. -/
def scaleOf (q : ℚ) : ℚ :=
  if q < 1 then 1/10 else (10 : ℚ) ^ (Nat.log 10 q.floor.toNat)

/-- Embeds `np.testing.assert_approx_equal(s, 1.0)` (default
`significant = 7`) as used by `getLikelihoodValues` to assert that the
reduced likelihood sums to 1: the check passes iff `s = 1` exactly or the
scaled discrepancy `|1/scale - s/scale|` is below `10^(-6)`, where
`scale = 10 ** floor(log10((|1| + |s|)/2))`. -/
def checkNormalized (s : ℚ) : Bool :=
  if s = 1 then true
  else
    let scale := scaleOf ((1 + |s|) / 2)
    decide (|1/scale - s/scale| < 1 / (10 : ℚ) ^ (6 : ℕ))

/-- State of the level-value search of `getLikelihoodValues`: the candidate
threshold `value`, the current `step`, the current `direction`
(`0`, `1` or `-1`) and the confidence integral at `value`. -/
structure SearchState where
  value : ℚ
  step : ℚ
  direction : ℤ
  conf : ℚ
deriving DecidableEq

/-- One iteration of the `while` body of `getLikelihoodValues`
(contours.py lines 481-497): if the confidence integral exceeds the target
level, divide the step by 10 when the direction flips from `-1`, move the
value up by the (updated) step and set direction `+1`; otherwise the mirror
case moving down; finally recompute the confidence integral. -/
def searchBody (lik : List ℚ) (level : ℚ) (st : SearchState) : SearchState :=
  if st.conf > level then
    let step := if st.direction = -1 then st.step / 10 else st.step
    let value := st.value + step
    ⟨value, step, 1, confIntegral lik value⟩
  else
    let step := if st.direction = 1 then st.step / 10 else st.step
    let value := st.value - step
    ⟨value, step, -1, confIntegral lik value⟩

/-- The `while` loop of `getLikelihoodValues`: iterate `searchBody` while
the relative tolerance `|conf/level - 1| > epsilon` is not met, giving up
(and keeping the current state, with no error) once `max_iterations` body
executions have happened.  `fuel` counts the remaining allowed iterations,
starting at `max_iterations`. -/
def searchLoop (lik : List ℚ) (level epsilon : ℚ) : ℕ → SearchState → SearchState
  | 0, st => st
  | fuel + 1, st =>
      if |st.conf / level - 1| > epsilon then
        searchLoop lik level epsilon fuel (searchBody lik level st)
      else st

/-- The per-level search of `getLikelihoodValues` (lines 464-501).  The
seed is `max_likelihood * exp(-0.5 * chi2(2).ppf(level))`; a chi-squared
distribution with 2 degrees of freedom has cdf `1 - exp(-x/2)`, hence
`ppf(level) = -2 ln(1-level)` and the seed is exactly
`max_likelihood * (1 - level)` (for levels in `[0,1)`, the only levels the
engine is given).  `carry` is the `(step, direction)` pair, which the
source initialises once, before the loop over levels, so it is threaded
through the searches.  Returns the recorded `(value, confidence)` pair and
the `(step, direction)` state left for the next level. -/
def searchLevel (lik : List ℚ) (epsilon : ℚ) (maxIter : ℕ)
    (carry : ℚ × ℤ) (level : ℚ) : (ℚ × ℚ) × (ℚ × ℤ) :=
  let maxL := listMaxQ lik
  let value0 := maxL * (1 - level)
  let st0 : SearchState := ⟨value0, carry.1, carry.2, confIntegral lik value0⟩
  let st := searchLoop lik level epsilon maxIter st0
  ((st.value, st.conf), (st.step, st.direction))

/-- The `for level in levels` loop of `getLikelihoodValues`: run the search
for each level in order, threading the `(step, direction)` carry, and
collect the recorded `(value, confidence)` pairs. -/
def runLevels (lik : List ℚ) (epsilon : ℚ) (maxIter : ℕ) :
    List ℚ → (ℚ × ℤ) → List (ℚ × ℚ)
  | [], _ => []
  | l :: ls, carry =>
      let r := searchLevel lik epsilon maxIter carry l
      r.1 :: runLevels lik epsilon maxIter ls r.2

/-- The `(step, direction)` state after searching a prefix of levels,
starting from `carry`. -/
def carryAfter (lik : List ℚ) (epsilon : ℚ) (maxIter : ℕ) :
    List ℚ → (ℚ × ℤ) → (ℚ × ℤ)
  | [], carry => carry
  | l :: ls, carry =>
      carryAfter lik epsilon maxIter ls (searchLevel lik epsilon maxIter carry l).2

/-- An N-dimensional numpy array of rationals: its shape and its entries in
row-major (C) order. -/
structure NDArray where
  shape : List ℕ
  data : List ℚ
deriving DecidableEq

/-- Embeds `ContourPlot.getLikelihoodValues(levels, epsilon, max_iterations)`
(contours.py lines 438-507) as a function of the reduced likelihood grid it
reads.  It asserts `ndim == 2`, asserts approximate normalization, then
searches each level in turn with `step` initialised to the maximum
likelihood and `direction` to 0 once, before the loop over levels.  The
first returned list is the Python return value `values`; the second is
`p_values`, which the method stores in `self.computed_p_values`. -/
def getLikelihoodValues (g : NDArray) (levels : List ℚ) (epsilon : ℚ)
    (max_iterations : ℕ) : Except ContourError (List ℚ × List ℚ) :=
  if g.shape.length = 2 then
    if checkNormalized g.data.sum then
      let pairs := runLevels g.data epsilon max_iterations levels (listMaxQ g.data, 0)
      .ok (pairs.map Prod.fst, pairs.map Prod.snd)
    else .error .notNormalized
  else .error .assertionError

/-- First component of a successful `getLikelihoodValues` result (the
Python return value `values`), or `[]` on error. -/
def okValues (r : Except ContourError (List ℚ × List ℚ)) : List ℚ :=
  match r with
  | .ok v => v.1
  | .error _ => []

/-- Second component of a successful `getLikelihoodValues` result (the
`computed_p_values` sequence), or `[]` on error. -/
def okPValues (r : Except ContourError (List ℚ × List ℚ)) : List ℚ :=
  match r with
  | .ok v => v.2
  | .error _ => []

/-- Normalize a numpy index along an axis of length `n`: indices in
`[0, n)` are used as-is, indices in `[-n, 0)` wrap around to the end
(numpy/Python semantics), anything else is an `IndexError`. -/
def normIndex (i : ℤ) (n : ℕ) : Option ℕ :=
  if 0 ≤ i ∧ i < (n : ℤ) then some i.toNat
  else if -(n : ℤ) ≤ i ∧ i < 0 then some (i + n).toNat
  else none

/-- Flatten a multi-index into a row-major flat position, applying numpy
index normalization per axis; `none` on an `IndexError` (wrong rank or an
index out of range). -/
def ndFlat : List ℤ → List ℕ → Option ℕ
  | [], [] => some 0
  | i :: is, n :: ns =>
      match normIndex i n, ndFlat is ns with
      | some j, some rest => some (j * ns.prod + rest)
      | _, _ => none
  | _, _ => none

/-- Entry of an N-dimensional array at a multi-index, with numpy indexing
semantics (negative wrap-around); `none` on `IndexError`. -/
def ndGet (a : NDArray) (idx : List ℤ) : Option ℚ :=
  (ndFlat idx a.shape).map (fun f => a.data.getD f 0)

/-- Sum an N-dimensional array over one axis, as `likelihood.sum(axis)`
does in `marginalize`: the result drops that axis from the shape and each
entry sums the fibre over it. -/
def sumAxis (a : NDArray) (ax : ℕ) : NDArray :=
  let n := a.shape.getD ax 1
  let stride := (a.shape.drop (ax + 1)).prod
  let newShape := a.shape.eraseIdx ax
  let newData := (List.range newShape.prod).map (fun q =>
    ((List.range n).map (fun i =>
      a.data.getD ((q / stride * n + i) * stride + q % stride) 0)).sum)
  ⟨newShape, newData⟩

/-- The 1-D marginal along axis `ax`, as `likelihood.sum(axis=tuple(remaining
axes))` computes it in `marginal`: entry `i` sums every grid cell whose
index along `ax` equals `i`. -/
def marginalAlong (a : NDArray) (ax : ℕ) : List ℚ :=
  let n := a.shape.getD ax 1
  let stride := (a.shape.drop (ax + 1)).prod
  (List.range n).map (fun i =>
    ((List.range a.data.length).filter
      (fun pos => decide (pos / stride % n = i))).map (fun pos => a.data.getD pos 0) |>.sum)

/-- The size-one hyperplane of `a` at index `i` along axis `ax`, as
`np.split(likelihood, npoints, axis=slice_axis)[i]` extracts it in `slice`
(where `npoints` equals the axis length, so every piece has extent 1 along
the split axis). -/
def hyperplane (a : NDArray) (ax i : ℕ) : NDArray :=
  let n := a.shape.getD ax 1
  let stride := (a.shape.drop (ax + 1)).prod
  let newData := (List.range (a.shape.set ax 1).prod).map (fun q =>
    a.data.getD ((q / stride * n + i) * stride + q % stride) 0)
  ⟨a.shape.set ax 1, newData⟩

/-- numpy `squeeze`: remove every axis of extent 1; the row-major data is
unchanged. -/
def squeeze (a : NDArray) : NDArray :=
  ⟨a.shape.filter (fun n => decide (n ≠ 1)), a.data⟩

/-- Divide every entry by the total sum, as the in-place
`reduced_likelihood /= reduced_likelihood.sum()` normalization steps do. -/
def normalizeND (a : NDArray) : NDArray :=
  ⟨a.shape, a.data.map (fun x => x / a.data.sum)⟩

/-- numpy `linspace(a, b, n)`: `n` evenly spaced samples from `a` to `b`
inclusive. -/
def linspace (a b : ℚ) (n : ℕ) : List ℚ :=
  if n ≤ 1 then (if n = 0 then [] else [a])
  else (List.range n).map (fun i => a + i * (b - a) / (n - 1))

/-- Composite-Simpson core of `scipy.integrate.simps` for uniformly spaced
samples with spacing `h` (the source always integrates against a `linspace`
grid): sum `h/3 * (y0 + 4*y1 + y2)` over consecutive interval pairs.  On an
odd number of samples this is the whole rule; a trailing unpaired sample
contributes nothing (the even-sample case is assembled in `simps`). -/
def basicSimps (h : ℚ) : List ℚ → ℚ
  | y0 :: y1 :: rest => h / 3 * (y0 + 4 * y1 + rest.headD 0) + basicSimps h rest
  | _ => 0

/-- Embeds `scipy.integrate.simps(y, x)` for uniformly spaced `x` with
spacing `h`: plain composite Simpson for an odd number of samples; for an
even number, the default `even='avg'` averages the two ways of handling the
leftover interval (Simpson on all but the last sample plus a trapezoid on
the last interval, and the mirror image at the front). -/
def simps (ys : List ℚ) (h : ℚ) : ℚ :=
  if ys.length % 2 = 1 then basicSimps h ys
  else
    let r := ys.reverse
    ((basicSimps h ys.dropLast + basicSimps h (ys.drop 1))
      + (h / 2 * (r.headD 0 + r.tail.headD 0)
         + h / 2 * (ys.tail.headD 0 + ys.headD 0))) / 2

/-- Stable sort by a key function: embeds Python's stable
`list.sort(key=...)` (equal keys keep their original relative order), as
an insertion sort under the nondecreasing-key relation. -/
def sortKey {α β : Type} [LinearOrder β] (key : α → β) (l : List α) : List α :=
  l.insertionSort (fun x y => key x ≤ key y)

/-- The state of a `ContourPlot` handler relevant to the numeric engine
(plotting members are outside the embedding): the name-to-axis registry
`parameter_axes` (a Python dict, embedded as an association list in
insertion order), the loaded likelihood grid, the four calibration dicts
`min`, `max`, `npoints`, `unit` set by `getUnitsFromOptions`/`setUnits`,
and the reduction products `reduced_likelihood`, `remaining_parameters`
and `extent` produced by `marginalize`/`slice`. -/
structure ContourPlot where
  parameter_axes : List (String × ℕ)
  likelihood : NDArray
  pmin : List (String × ℚ)
  pmax : List (String × ℚ)
  pnpoints : List (String × ℕ)
  punit : List (String × ℚ)
  reduced_likelihood : Option NDArray := none
  remaining_parameters : List String := []
  extent : Option (ℚ × ℚ × ℚ × ℚ) := none
deriving DecidableEq

/-- The registered parameter names, `self.parameter_axes.keys()` (Python 2
returns a list; embedded as the association list's key order). -/
def keysOf (cp : ContourPlot) : List String :=
  cp.parameter_axes.map Prod.fst

/-- Axis index of a registered parameter, `self.parameter_axes[name]`
(0 as a dummy for unregistered names; every use below is guarded by a
registration check, as in the source's asserts). -/
def axisOf (cp : ContourPlot) (name : String) : ℕ :=
  (cp.parameter_axes.lookup name).getD 0

/-- Physical-to-pixel conversion as computed inline by `ContourPlot.value`
(line 164) and `ContourPlot.point` (lines 424-425):
`int((coordinate - min) / unit)`, i.e. truncation toward zero. -/
def toPixel (pmin unit coordinate : ℚ) : ℤ :=
  pyInt ((coordinate - pmin) / unit)

/-- Pixel-to-physical conversion as computed inline by
`ContourPlot.getMaximum` (lines 210, 216): `pixel * unit + min`. -/
def toPhysical (pmin unit : ℚ) (pixel : ℕ) : ℚ :=
  pixel * unit + pmin

/-- Fill the pixel vector of `ContourPlot.value`: for every registered
parameter, after asserting its `unit` and `min` calibration entries exist,
set `pix[axis] = int((coordinates[axis] - min) / unit)`.  An axis beyond
the coordinate vector is an uncaught `IndexError`. -/
def computePix (cp : ContourPlot) (coords : List ℚ) :
    List (String × ℕ) → List ℤ → Except ContourError (List ℤ)
  | [], pix => .ok pix
  | (name, ax) :: rest, pix =>
      match cp.punit.lookup name, cp.pmin.lookup name with
      | some u, some mn =>
          if h : ax < coords.length then
            computePix cp coords rest (pix.set ax (toPixel mn u (coords.get ⟨ax, h⟩)))
          else .error .indexError
      | _, _ => .error .assertionError

/-- Embeds `ContourPlot.value(*coordinates)` (lines 149-171): assert one
coordinate per likelihood axis, convert each to a pixel by truncation,
then look the pixel up in the (full) likelihood grid; an `IndexError` from
the lookup is caught and turned into the `None` sentinel (`Option.none`). -/
def ContourPlot.value (cp : ContourPlot) (coords : List ℚ) :
    Except ContourError (Option ℚ) :=
  if coords.length = cp.likelihood.shape.length then
    match computePix cp coords cp.parameter_axes (List.replicate coords.length 0) with
    | .ok pix => .ok (ndGet cp.likelihood pix)
    | .error e => .error e
  else .error .assertionError

/-- Build the updated state at the end of `marginalize`/`slice` (lines
301-303 and 384-386): store the reduction, then read the calibrated `min`
and `max` of the first two remaining parameters to set `extent`.  Fewer
than two remaining parameters is an uncaught `IndexError`; a missing
calibration entry is an uncaught `KeyError`. -/
def finishReduction (cp : ContourPlot) (reduced : NDArray)
    (remaining : List String) : Except ContourError ContourPlot :=
  match remaining with
  | p0 :: p1 :: _ =>
      match cp.pmin.lookup p0, cp.pmax.lookup p0, cp.pmin.lookup p1, cp.pmax.lookup p1 with
      | some mn0, some mx0, some mn1, some mx1 =>
          .ok { cp with
                reduced_likelihood := some reduced,
                remaining_parameters := remaining,
                extent := some (mn0, mx0, mn1, mx1) }
      | _, _, _, _ => .error .keyError
  | _ => .error .indexError

/-- Embeds `ContourPlot.marginalize(parameter_name)` (lines 272-303):
assert the parameter is registered; if the grid is already below 3
dimensions, short-circuit with the normalized original grid and the
registry key list as the remaining parameters (no sorting, no removal);
otherwise sum the grid over the parameter's axis, normalize, remove the
parameter from the key list and sort the rest by axis index (Python's
stable `list.sort(key=self.parameter_axes.get)`).  Either branch then sets
`extent` from the first two remaining parameters.  The calibration dicts
are not touched. -/
def ContourPlot.marginalize (cp : ContourPlot) (name : String) :
    Except ContourError ContourPlot :=
  if (keysOf cp).contains name then
    if cp.likelihood.shape.length < 3 then
      finishReduction cp (normalizeND cp.likelihood) (keysOf cp)
    else
      let reduced := normalizeND (sumAxis cp.likelihood (axisOf cp name))
      let remaining := sortKey (axisOf cp) ((keysOf cp).erase name)
      finishReduction cp reduced remaining
  else .error .unknownParameter

/-- Embeds `ContourPlot.slice(parameter_name, parameter_value)` (lines
349-386): assert the parameter is registered; below 3 dimensions,
short-circuit exactly as `marginalize` does; otherwise convert the
physical value to a pixel index by truncation, assert the index is below
the parameter's pixel count (the "Out of bounds!" assert -- only an upper
bound, Python list indexing makes negative indices wrap), extract and
squeeze the hyperplane at that index, normalize, and sort the remaining
parameters by axis index.  The calibration dicts are not touched. -/
def ContourPlot.slice (cp : ContourPlot) (name : String) (value : ℚ) :
    Except ContourError ContourPlot :=
  if (keysOf cp).contains name then
    if cp.likelihood.shape.length < 3 then
      finishReduction cp (normalizeND cp.likelihood) (keysOf cp)
    else
      match cp.pmin.lookup name, cp.punit.lookup name, cp.pnpoints.lookup name with
      | some mn, some u, some npts =>
          let idx := toPixel mn u value
          if idx < (npts : ℤ) then
            match normIndex idx npts with
            | some i =>
                let reduced := normalizeND (squeeze (hyperplane cp.likelihood (axisOf cp name) i))
                let remaining := sortKey (axisOf cp) ((keysOf cp).erase name)
                finishReduction cp reduced remaining
            | none => .error .indexError
          else .error .outOfBounds
      | _, _, _ => .error .keyError
  else .error .unknownParameter

/-- The likelihood maximum index, `np.where(l == l.max())[0][0]`: first
index attaining the maximum. -/
def idxOfMax (l : List ℚ) : ℕ :=
  l.findIdx (fun x => decide (x = listMaxQ l))

/-- First index attaining the minimum, `np.argmin`. -/
def idxOfMin (l : List ℚ) : ℕ :=
  l.findIdx (fun x => decide (x = listMinQ l))

/-- The rank-based credible fraction of `_1d_level_values` (line 43):
`all_levels[n] = l[l >= l[n]].sum() / l.sum()`. -/
def allLevelsAt (l : List ℚ) (n : ℕ) : ℚ :=
  (l.filter (fun x => decide (l.getD n 0 ≤ x))).sum / l.sum

/-- The `closest` index of `_1d_level_values` (line 46): first index
minimizing `|all_levels - level|`. -/
def closestIdx (l : List ℚ) (level : ℚ) : ℕ :=
  idxOfMin ((List.range l.length).map (fun n => |allLevelsAt l n - level|))

/-- Distance of sample `i` from the closest-level sample,
`|l[i] - l[closest]|` (line 49). -/
def distAt (l : List ℚ) (level : ℚ) (i : ℕ) : ℚ :=
  |l.getD i 0 - l.getD (closestIdx l level) 0|

/-- Zero-based rank of sample `i` as `_1d_level_values` computes it:
`scipy.stats.rankdata` (default tie method `average`) assigns
`s + (c+1)/2` where `s` counts strictly smaller distances and `c` counts
equal ones; `.astype(np.int)` truncates the half-integer average, and 1 is
subtracted.  With ties (`c` even) this truncation can skip integer rank
values. -/
def rank0 (l : List ℚ) (level : ℚ) (i : ℕ) : ℕ :=
  ((List.range l.length).filter (fun j => decide (distAt l level j < distAt l level i))).length
    + (((List.range l.length).filter (fun j => decide (distAt l level j = distAt l level i))).length + 1) / 2
    - 1

/-- Check that every rank `0 .. quantity-1` is attained by some sample:
exactly the condition under which the `np.where(ranks == n)[0][0]` lookups
of `_1d_level_values` all succeed. -/
def ranksComplete (l : List ℚ) (level : ℚ) (quantity : ℕ) : Bool :=
  (List.range quantity).all (fun n =>
    ((List.range l.length).find? (fun i => decide (rank0 l level i = n))).isSome)

/-- Embeds one loop turn `par.append(p[np.where(ranks == n)[0][0]])` of
`_1d_level_values` (line 53): the parameter value of the first sample
achieving rank `n`, or an `IndexError` (`none`) when no sample does or
when `p` is too short. -/
def rankPick (p l : List ℚ) (level : ℚ) (n : ℕ) : Option ℚ :=
  match (List.range l.length).find? (fun i => decide (rank0 l level i = n)) with
  | some i => p[i]?
  | none => none

/-- The `for n in range(quantity)` collection loop of `_1d_level_values`
(lines 51-53): pick the value for each rank in order; any failed pick
aborts the whole loop (the uncaught `IndexError`). -/
def pickAll (p l : List ℚ) (level : ℚ) : List ℕ → Option (List ℚ)
  | [] => some []
  | n :: ns =>
      match rankPick p l level n, pickAll p l level ns with
      | some v, some vs => some (v :: vs)
      | _, _ => none

/-- Embeds `_1d_level_values(p, l, level, quantity)` (contours.py lines
29-61): locate the mode, compute the rank-based credible fraction of every
sample, find the sample closest to the requested level, rank all samples
by distance to that sample's likelihood (average ranks truncated to int),
pick for each rank `0 .. quantity-1` the first sample attaining it, and
stably sort the picked parameter values by closeness to the mode.  Any
failing array lookup (empty input, a skipped rank, `p` shorter than the
index found) is an uncaught `IndexError`, embedded as `none`. -/
def _1d_level_values (p l : List ℚ) (level : ℚ) (quantity : ℕ) :
    Option (List ℚ) :=
  if l.isEmpty then none
  else
    match p[idxOfMax l]? with
    | none => none
    | some parmax =>
        match pickAll p l level (List.range quantity) with
        | some par => some (sortKey (fun x => |x - parmax|) par)
        | none => none

/-- Embeds `ContourPlot.marginal(parameter_name, levels)` (lines 306-346):
assert the parameter is registered, sum the grid over every other axis,
divide by the Simpson-rule integral of the summed curve over the
parameter's physical range (a uniform `linspace` grid), locate the mode,
and, when `levels` is given, bracket each level with the first two of the
three values `_1d_level_values` finds (a failure there is an uncaught
exception).  Returns the range, the normalized marginal curve, the mode
position, and the optional bracket list. -/
def ContourPlot.marginal (cp : ContourPlot) (name : String)
    (levels : Option (List ℚ)) :
    Except ContourError (List ℚ × List ℚ × ℚ × Option (List (ℚ × ℚ))) :=
  if (keysOf cp).contains name then
    match cp.pmin.lookup name, cp.pmax.lookup name, cp.pnpoints.lookup name with
    | some mn, some mx, some npts =>
        let parameter_range := linspace mn mx npts
        let marg := marginalAlong cp.likelihood (axisOf cp name)
        let h := if npts ≤ 1 then 0 else (mx - mn) / ((npts : ℚ) - 1)
        let normalization := simps marg h
        let marginal_likelihood := marg.map (fun x => x / normalization)
        let par_max := parameter_range.getD (idxOfMax marginal_likelihood) 0
        match levels with
        | none => .ok (parameter_range, marginal_likelihood, par_max, none)
        | some lvls =>
            match lvls.mapM (fun lv =>
              match _1d_level_values parameter_range marginal_likelihood lv 3 with
              | some (a :: b :: _) => some (a, b)
              | _ => none) with
            | some extremes => .ok (parameter_range, marginal_likelihood, par_max, some extremes)
            | none => .error .indexError
    | _, _, _ => .error .keyError
  else .error .unknownParameter

/-- The grid spacing of the `linspace` range `marginal` integrates
against. -/
def marginalSpacing (cp : ContourPlot) (name : String) : ℚ :=
  match cp.pmin.lookup name, cp.pmax.lookup name, cp.pnpoints.lookup name with
  | some mn, some mx, some npts =>
      if npts ≤ 1 then 0 else (mx - mn) / ((npts : ℚ) - 1)
  | _, _, _ => 0

/-- The normalized marginal curve returned by `marginal` (empty list on
error). -/
def marginalCurveOf (cp : ContourPlot) (name : String) : List ℚ :=
  match cp.marginal name none with
  | .ok r => r.2.1
  | .error _ => []

/-- Parameter name used by the concrete example states. -/
def pA : String := "a"

/-- Parameter name used by the concrete example states. -/
def pB : String := "b"

/-- Parameter name of the dark-energy equation of state, as in the
source's default registry. -/
def pW : String := "w"

/-- Parameter name of the matter density, as in the source's default
registry. -/
def pOm : String := "Omega_m"

/-- Parameter name of the fluctuation amplitude, as in the source's
default registry. -/
def pS8 : String := "sigma8"

/-- A 2-parameter state whose registry lists the parameters out of axis
order ("b" on axis 1 first, then "a" on axis 0), with a 2x2 grid, so that
`marginalize`/`slice` take the already-marginal short-circuit branch. -/
def cp7 : ContourPlot :=
  { parameter_axes := [(pB, 1), (pA, 0)],
    likelihood := ⟨[2, 2], [1, 1, 1, 1]⟩,
    pmin := [(pB, 0), (pA, 0)], pmax := [(pB, 1), (pA, 1)],
    pnpoints := [(pB, 2), (pA, 2)], punit := [(pB, 1), (pA, 1)] }

/-- A calibrated 3-parameter state (2x2x2 uniform grid) with the source's
default registry `Omega_m -> 0, w -> 1, sigma8 -> 2`; `w` is calibrated
to the physical range `[-2, 0]`. -/
def cp9 : ContourPlot :=
  { parameter_axes := [(pOm, 0), (pW, 1), (pS8, 2)],
    likelihood := ⟨[2, 2, 2], List.replicate 8 (1/8)⟩,
    pmin := [(pOm, 1/5), (pW, -2), (pS8, 7/10)],
    pmax := [(pOm, 1/2), (pW, 0), (pS8, 9/10)],
    pnpoints := [(pOm, 2), (pW, 2), (pS8, 2)],
    punit := [(pOm, 3/10), (pW, 2), (pS8, 1/5)] }

/-- A calibrated 3-parameter state whose `w` axis has 3 pixels over the
physical range `[-2, 0]` (unit 1), used to exercise the out-of-bounds
branch of `slice`. -/
def cpW3 : ContourPlot :=
  { parameter_axes := [(pOm, 0), (pW, 1), (pS8, 2)],
    likelihood := ⟨[2, 3, 2], List.replicate 12 (1/12)⟩,
    pmin := [(pOm, 1/5), (pW, -2), (pS8, 7/10)],
    pmax := [(pOm, 1/2), (pW, 0), (pS8, 9/10)],
    pnpoints := [(pOm, 2), (pW, 3), (pS8, 2)],
    punit := [(pOm, 3/10), (pW, 1), (pS8, 1/5)] }

/-- A 1-parameter state with 3 pixels calibrated to the physical range
`[0, 2]` (unit 1), used to exercise point queries outside the sampled
range. -/
def cp8 : ContourPlot :=
  { parameter_axes := [(pA, 0)],
    likelihood := ⟨[3], [10, 20, 30]⟩,
    pmin := [(pA, 0)], pmax := [(pA, 2)],
    pnpoints := [(pA, 3)], punit := [(pA, 1)] }

/-- A 1-parameter state with grid spacing 3 (range `[0, 6]`, 3 pixels)
whose marginal curve `[1, 0, 1]` has Simpson integral equal to its plain
sum, exercising the normalization of `marginal`. -/
def cp10 : ContourPlot :=
  { parameter_axes := [(pA, 0)],
    likelihood := ⟨[3], [1, 0, 1]⟩,
    pmin := [(pA, 0)], pmax := [(pA, 6)],
    pnpoints := [(pA, 3)], punit := [(pA, 3)] }

/-- The 2x2 normalized likelihood grid used to exercise the level-value
search. -/
def gridC2 : NDArray :=
  ⟨[2, 2], [2/5, 3/10, 1/5, 1/10]⟩

/-- C1 counterexample: the physical-to-pixel conversion of the source
(`int((value - min)/unit)` in `ContourPlot.value` and `ContourPlot.point`)
does not compute `round((value - min)/unit)`: with `min = 0`, `unit = 1`
and `value = 1.7` the code yields pixel 1 while rounding yields 2. -/
theorem c1_toPixel_not_round :
    toPixel 0 1 (17/10) ≠ round (((17/10 : ℚ) - 0) / 1) := by
  with_unfolding_all decide

/-- C1 (amended): for every calibration with nonzero unit and every pixel
index `p`, the truncating physical-to-pixel conversion of
`ContourPlot.value`/`ContourPlot.point` applied to the physical coordinate
`toPhysical p = p * unit + min` of `ContourPlot.getMaximum` returns `p`
again; the conversion computes `int((value - min)/unit)` (truncation
toward zero), not `round`. -/
theorem c1_roundtrip_trunc (pmin unit : ℚ) (p : ℕ) (h : unit ≠ 0) :
    toPixel pmin unit (toPhysical pmin unit p) = p := by
  unfold toPixel toPhysical pyInt
  have h1 : ((p : ℚ) * unit + pmin - pmin) / unit = (p : ℚ) := by
    field_simp
  rw [h1, if_pos (by positivity), Int.floor_natCast]

/-- C1 witness: the round-trip at calibration `min = -2`, `unit = 1/2`,
pixel 3. -/
theorem c1_roundtrip_trunc_witness :
    (1/2 : ℚ) ≠ 0 ∧ toPixel (-2) (1/2) (toPhysical (-2) (1/2) 3) = 3 :=
  ⟨by norm_num, c1_roundtrip_trunc (-2) (1/2) 3 (by norm_num)⟩

/-- C2 counterexample: level searches are not independent.  On the
normalized 2x2 grid `gridC2` with `epsilon = 1/100` and 3 iterations, the
batch invocation on the levels `[1/2, 1/2]` reports `(53/250, 7/10)` for
the second copy of the level, while the solo invocation on `[1/2]` reports
`(13/25, 0)`: the `step` and `direction` state left by the first search
changes the second one. -/
theorem c2_levels_not_independent :
    getLikelihoodValues gridC2 [1/2, 1/2] (1/100) 3 = .ok ([13/25, 53/250], [0, 7/10]) ∧
    getLikelihoodValues gridC2 [1/2] (1/100) 3 = .ok ([13/25], [0]) ∧
    (53/250 : ℚ) ≠ 13/25 ∧ (7/10 : ℚ) ≠ 0 := by
  refine ⟨?_, ?_, by norm_num, by norm_num⟩ <;>
    · set_option maxRecDepth 2500 in with_unfolding_all decide

/-- C2 (amended): only the seed `value` is reset per level; `step` and
`direction` are initialised once before the loop over levels and carried
from each search into the next, so only the first requested level is
guaranteed to report the same threshold and achieved confidence as a solo
invocation with that level alone (same grid, epsilon and max iterations);
later levels start from the carried state and may differ. -/
theorem c2_first_level_matches_solo (g : NDArray) (l : ℚ) (ls : List ℚ)
    (epsilon : ℚ) (m : ℕ) :
    (getLikelihoodValues g (l :: ls) epsilon m).map (fun r => (r.1.head?, r.2.head?))
      = (getLikelihoodValues g [l] epsilon m).map (fun r => (r.1.head?, r.2.head?)) := by
  unfold getLikelihoodValues
  split
  · split
    · simp [runLevels, Except.map]
    · rfl
  · rfl

/-- C3 counterexample: when the search direction flips (here from `-1`
with the confidence integral `7/10` above the level `1/2`), the step is
divided by 10 -- from 1 to `1/10`, not halved to `1/2`. -/
theorem c3_step_not_halved :
    (searchBody [2/5, 3/10, 1/5, 1/10] (1/2) ⟨1/5, 1, -1, 7/10⟩).step = 1/10 ∧
    (1/10 : ℚ) ≠ 1/2 := by
  exact ⟨by with_unfolding_all decide, by norm_num⟩

/-- C3 (amended): in every iteration of the level-value search in which
the direction flips (from `-1` to `+1` or from `+1` to `-1`), the step is
divided by 10 (not halved) before the value is moved by the updated step
in the new direction. -/
theorem c3_flip_divides_step (lik : List ℚ) (level : ℚ) (st : SearchState) :
    (st.conf > level → st.direction = -1 →
      searchBody lik level st =
        ⟨st.value + st.step / 10, st.step / 10, 1,
          confIntegral lik (st.value + st.step / 10)⟩) ∧
    (¬ st.conf > level → st.direction = 1 →
      searchBody lik level st =
        ⟨st.value - st.step / 10, st.step / 10, -1,
          confIntegral lik (st.value - st.step / 10)⟩) := by
  constructor <;> intro h1 h2 <;> simp [searchBody, h1, h2]

/-- C3 witness: a flip from direction `-1` at step 1 moves the value up by
the updated step `1/10`. -/
theorem c3_flip_divides_step_witness :
    (7/10 : ℚ) > 1/2 ∧
    searchBody [2/5, 3/10, 1/5, 1/10] (1/2) ⟨1/5, 1, -1, 7/10⟩ =
      ⟨1/5 + 1/10, 1/10, 1, confIntegral [2/5, 3/10, 1/5, 1/10] (1/5 + 1/10)⟩ :=
  ⟨by norm_num,
   (c3_flip_divides_step [2/5, 3/10, 1/5, 1/10] (1/2) ⟨1/5, 1, -1, 7/10⟩).1
     (by norm_num) rfl⟩

/-- C5 counterexample: the level-value search does not accept arrays of
any dimensionality: a 1-dimensional grid that sums exactly to 1 is
rejected by the `ndim == 2` assert before the search starts. -/
theorem c5_rejects_non_2d :
    checkNormalized (([1/2, 1/2] : List ℚ).sum) = true ∧
    getLikelihoodValues ⟨[2], [1/2, 1/2]⟩ [1/2] (1/100) 5 = .error .assertionError := by
  exact ⟨by with_unfolding_all decide, by with_unfolding_all decide⟩

/-- C5 (amended): the level-value search accepts only 2-dimensional
probability arrays (it asserts `ndim == 2` first); on a 2-dimensional
array it fails with the not-normalized error exactly when the sum fails
the approximate-equality-to-1 check, and proceeds without error whenever
that check passes. -/
theorem c5_dimension_gate (g : NDArray) (levels : List ℚ) (epsilon : ℚ) (m : ℕ) :
    (g.shape.length = 2 → checkNormalized g.data.sum = true →
        (getLikelihoodValues g levels epsilon m).isOk = true) ∧
    (g.shape.length = 2 → checkNormalized g.data.sum = false →
        getLikelihoodValues g levels epsilon m = .error .notNormalized) ∧
    (g.shape.length ≠ 2 → getLikelihoodValues g levels epsilon m = .error .assertionError) := by
  refine ⟨fun h1 h2 => ?_, fun h1 h2 => ?_, fun h1 => ?_⟩
  · simp [getLikelihoodValues, h1, h2, Except.isOk, Except.toBool]
  · simp [getLikelihoodValues, h1, h2]
  · simp [getLikelihoodValues, h1]

/-- C5 witness: a normalized 2x2 grid passes, a 2-D grid with sum `4/5`
fails the normalization check, and a 1-axis grid is rejected by the
dimension assert. -/
theorem c5_dimension_gate_witness :
    (getLikelihoodValues ⟨[2, 2], [1/4, 1/4, 1/4, 1/4]⟩ [1/2] (1/100) 2).isOk = true ∧
    getLikelihoodValues ⟨[2, 1], [2/5, 2/5]⟩ [1/2] (1/100) 2 = .error .notNormalized ∧
    getLikelihoodValues ⟨[1], [1]⟩ [1/2] (1/100) 2 = .error .assertionError :=
  ⟨(c5_dimension_gate ⟨[2, 2], [1/4, 1/4, 1/4, 1/4]⟩ [1/2] (1/100) 2).1
     (by with_unfolding_all decide) (by with_unfolding_all decide),
   (c5_dimension_gate ⟨[2, 1], [2/5, 2/5]⟩ [1/2] (1/100) 2).2.1
     (by with_unfolding_all decide) (by with_unfolding_all decide),
   (c5_dimension_gate ⟨[1], [1]⟩ [1/2] (1/100) 2).2.2 (by with_unfolding_all decide)⟩

/-- A remaining-parameter list is sorted ascending by original axis
index. -/
def axisSorted (cp : ContourPlot) (l : List String) : Prop :=
  l.Sorted (fun x y => axisOf cp x ≤ axisOf cp y)

theorem sortKey_sorted {α β : Type} [LinearOrder β] (key : α → β) (l : List α) :
    (sortKey key l).Sorted (fun x y => key x ≤ key y) := by
  haveI : IsTotal α (fun x y => key x ≤ key y) := ⟨fun a b => le_total (key a) (key b)⟩
  haveI : IsTrans α (fun x y => key x ≤ key y) := ⟨fun a b c hab hbc => le_trans hab hbc⟩
  exact List.sorted_insertionSort _ l

theorem finishReduction_fields (cp : ContourPlot) (red : NDArray)
    (rem : List String) (cp1 : ContourPlot)
    (h : finishReduction cp red rem = .ok cp1) :
    cp1.pmin = cp.pmin ∧ cp1.pmax = cp.pmax ∧ cp1.pnpoints = cp.pnpoints ∧
    cp1.punit = cp.punit ∧ cp1.remaining_parameters = rem := by
  unfold finishReduction at h
  split at h
  · split at h
    · injection h with h
      subst h
      exact ⟨rfl, rfl, rfl, rfl, rfl⟩
    · simp at h
  · simp at h

theorem marginalize_sorted (cp : ContourPlot) (name : String) (cp1 : ContourPlot)
    (h3 : 3 ≤ cp.likelihood.shape.length)
    (h : cp.marginalize name = .ok cp1) :
    axisSorted cp cp1.remaining_parameters := by
  unfold ContourPlot.marginalize at h
  split at h
  · rw [if_neg (by omega)] at h
    rw [(finishReduction_fields _ _ _ _ h).2.2.2.2]
    exact sortKey_sorted (axisOf cp) _
  · simp at h

theorem slice_sorted (cp : ContourPlot) (name : String) (v : ℚ) (cp1 : ContourPlot)
    (h3 : 3 ≤ cp.likelihood.shape.length)
    (h : cp.slice name v = .ok cp1) :
    axisSorted cp cp1.remaining_parameters := by
  unfold ContourPlot.slice at h
  split at h
  · rw [if_neg (by omega)] at h
    split at h
    · dsimp only [] at h
      split at h
      · split at h
        · rw [(finishReduction_fields _ _ _ _ h).2.2.2.2]
          exact sortKey_sorted (axisOf cp) _
        · simp at h
      · simp at h
    · simp at h
  · simp at h

/-- The state produced by `cp9.marginalize` over `w` (and equally by
`cp9.slice` at `w = -1`): the 2x2 reduction with the remaining parameters
`Omega_m`, `sigma8` and their extent. -/
def cp9marg : ContourPlot :=
  { cp9 with
    reduced_likelihood := some ⟨[2, 2], [1/4, 1/4, 1/4, 1/4]⟩,
    remaining_parameters := [pOm, pS8],
    extent := some (1/5, 1/2, 7/10, 9/10) }

instance (cp : ContourPlot) (l : List String) : Decidable (axisSorted cp l) :=
  haveI h : DecidableRel (fun x y : String => axisOf cp x ≤ axisOf cp y) :=
    fun a b => inferInstanceAs (Decidable (axisOf cp a ≤ axisOf cp b))
  List.decidableSorted l

/-- C7 counterexample: the short-circuit branch does not sort.  With the
registry listing "b" (axis 1) before "a" (axis 0) and an already-2-D grid,
`marginalize` succeeds but returns the remaining parameters in registry
key order `["b", "a"]`, which is not ascending by axis index. -/
theorem c7_shortcircuit_unsorted :
    cp7.marginalize pA = .ok { cp7 with
        reduced_likelihood := some ⟨[2, 2], [1/4, 1/4, 1/4, 1/4]⟩,
        remaining_parameters := [pB, pA], extent := some (0, 1, 0, 1) } ∧
    ¬ axisSorted cp7 [pB, pA] := by
  constructor
  · set_option maxRecDepth 2500 in with_unfolding_all decide
  · with_unfolding_all decide

/-- C7 (amended): when the grid has at least 3 dimensions, both
`marginalize` and `slice` return the remaining-parameter list sorted
ascending by original axis index; in the short-circuit branch (grid
already at most 2-D) the list is the registry key order, unsorted. -/
theorem c7_reduction_sorted_axes (cp : ContourPlot) (name : String) (v : ℚ)
    (cp1 cp2 : ContourPlot) :
    (3 ≤ cp.likelihood.shape.length → cp.marginalize name = .ok cp1 →
        axisSorted cp cp1.remaining_parameters) ∧
    (3 ≤ cp.likelihood.shape.length → cp.slice name v = .ok cp2 →
        axisSorted cp cp2.remaining_parameters) :=
  ⟨fun h3 h => marginalize_sorted cp name cp1 h3 h,
   fun h3 h => slice_sorted cp name v cp2 h3 h⟩

/-- C7 witness: the 3-D state `cp9` reduced over `w`, by marginalization
and by slicing at `w = -1`, yields the axis-sorted remaining list
`[Omega_m, sigma8]`. -/
theorem c7_reduction_sorted_axes_witness :
    axisSorted cp9 cp9marg.remaining_parameters ∧
    axisSorted cp9 cp9marg.remaining_parameters :=
  ⟨(c7_reduction_sorted_axes cp9 pW (-1) cp9marg cp9marg).1
      (by with_unfolding_all decide)
      (by set_option maxRecDepth 2500 in with_unfolding_all decide),
   (c7_reduction_sorted_axes cp9 pW (-1) cp9marg cp9marg).2
      (by with_unfolding_all decide)
      (by set_option maxRecDepth 2500 in with_unfolding_all decide)⟩

/-- C8 counterexample: a physical coordinate below the calibrated range
does not give the `None` sentinel: on `cp8` (range `[0, 2]`, 3 pixels) the
point query at coordinate `-1` truncates to pixel `-1`, which numpy wraps
to the last pixel, returning its likelihood value 30 instead of `None`. -/
theorem c8_negative_pixel_wraps :
    cp8.value [-1] = .ok (some 30) ∧
    (Except.ok (some (30 : ℚ)) : Except ContourError (Option ℚ)) ≠ .ok none := by
  constructor
  · with_unfolding_all decide
  · with_unfolding_all decide

/-- C8 (amended): `slice` fails with the out-of-bounds error whenever the
truncated pixel index is at least the parameter pixel count (in
particular `slice` of `w` at 100.0 with `w` calibrated to `[-2, 0]`), and
a point query whose truncated pixel overshoots the axis returns the
`None` sentinel; but a coordinate below the range that truncates to a
negative pixel in `[-n, -1]` wraps around and returns a value from the
far end of the grid rather than `None`. -/
theorem c8_bounds_behavior :
    (∀ (cp : ContourPlot) (name : String) (v mn u : ℚ) (npts : ℕ),
        3 ≤ cp.likelihood.shape.length →
        (keysOf cp).contains name = true →
        cp.pmin.lookup name = some mn →
        cp.punit.lookup name = some u →
        cp.pnpoints.lookup name = some npts →
        (npts : ℤ) ≤ toPixel mn u v →
        cp.slice name v = .error .outOfBounds) ∧
    cp8.value [5] = .ok none ∧
    cp8.value [-1] = .ok (some 30) := by
  refine ⟨?_, by with_unfolding_all decide, by with_unfolding_all decide⟩
  intro cp name v mn u npts h3 hk hmn hu hn hidx
  unfold ContourPlot.slice
  rw [if_pos hk, if_neg (by omega), hmn, hu, hn]
  dsimp only []
  rw [if_neg (by omega)]

/-- C8 witness: slicing `cpW3` (where `w` is calibrated to `[-2, 0]` with
3 pixels) at the physical value 100 hits the out-of-bounds branch. -/
theorem c8_bounds_behavior_witness :
    cpW3.slice pW 100 = .error .outOfBounds :=
  c8_bounds_behavior.1 cpW3 pW 100 (-2) 1 3
    (by with_unfolding_all decide) (by with_unfolding_all decide)
    (by with_unfolding_all decide) (by with_unfolding_all decide)
    (by with_unfolding_all decide) (by with_unfolding_all decide)

/-- C9 counterexample: after marginalizing `cp9` over `w`, every
calibration entry of the removed parameter `w` is still present (min -2,
max 0, 2 pixels, unit 2): nothing is dropped. -/
theorem c9_calibration_not_dropped :
    cp9.marginalize pW = .ok cp9marg ∧
    cp9marg.pmin.lookup pW = some (-2) ∧
    cp9marg.pmax.lookup pW = some 0 ∧
    cp9marg.pnpoints.lookup pW = some 2 ∧
    cp9marg.punit.lookup pW = some 2 := by
  refine ⟨?_, ?_, ?_, ?_, ?_⟩ <;>
    · set_option maxRecDepth 2500 in with_unfolding_all decide

/-- C9 (amended): `marginalize` leaves the calibration dictionaries
completely unchanged: the removed parameter keeps its (min, max, pixel
count, unit) entries, and every other parameter keeps its entries
unchanged. -/
theorem c9_calibration_preserved (cp : ContourPlot) (name : String)
    (cp1 : ContourPlot) (h : cp.marginalize name = .ok cp1) :
    cp1.pmin = cp.pmin ∧ cp1.pmax = cp.pmax ∧ cp1.pnpoints = cp.pnpoints ∧
    cp1.punit = cp.punit := by
  unfold ContourPlot.marginalize at h
  split at h
  · split at h
    · exact ⟨(finishReduction_fields _ _ _ _ h).1, (finishReduction_fields _ _ _ _ h).2.1,
        (finishReduction_fields _ _ _ _ h).2.2.1, (finishReduction_fields _ _ _ _ h).2.2.2.1⟩
    · exact ⟨(finishReduction_fields _ _ _ _ h).1, (finishReduction_fields _ _ _ _ h).2.1,
        (finishReduction_fields _ _ _ _ h).2.2.1, (finishReduction_fields _ _ _ _ h).2.2.2.1⟩
  · simp at h

/-- C9 witness: the calibration dictionaries of the marginalized state
`cp9marg` coincide with those of `cp9`. -/
theorem c9_calibration_preserved_witness :
    cp9marg.pmin = cp9.pmin ∧ cp9marg.pmax = cp9.pmax ∧
    cp9marg.pnpoints = cp9.pnpoints ∧ cp9marg.punit = cp9.punit :=
  c9_calibration_preserved cp9 pW cp9marg
    (by set_option maxRecDepth 2500 in with_unfolding_all decide)

theorem runLevels_length (lik : List ℚ) (e : ℚ) (m : ℕ) (ls : List ℚ) (c : ℚ × ℤ) :
    (runLevels lik e m ls c).length = ls.length := by
  induction ls generalizing c with
  | nil => rfl
  | cons l ls ih => simp [runLevels, ih]

theorem runLevels_getD (lik : List ℚ) (e : ℚ) (m : ℕ) (ls : List ℚ) (c : ℚ × ℤ)
    (i : ℕ) (hi : i < ls.length) :
    (runLevels lik e m ls c).getD i (0, 0) =
      (searchLevel lik e m (carryAfter lik e m (ls.take i) c) (ls.getD i 0)).1 := by
  induction ls generalizing c i with
  | nil => simp at hi
  | cons l ls ih =>
      cases i with
      | zero => simp [runLevels, carryAfter]
      | succ i =>
          simp only [runLevels, List.getD_cons_succ, List.take_succ_cons, carryAfter]
          exact ih _ i (by simpa using hi)

theorem getD_map_fst (l : List (ℚ × ℚ)) (i : ℕ) (hi : i < l.length) :
    (l.map Prod.fst).getD i 0 = (l.getD i (0, 0)).1 := by
  induction l generalizing i with
  | nil => simp at hi
  | cons a l ih =>
      cases i with
      | zero => rfl
      | succ i => simpa using ih i (by simpa using hi)

theorem getD_map_snd (l : List (ℚ × ℚ)) (i : ℕ) (hi : i < l.length) :
    (l.map Prod.snd).getD i 0 = (l.getD i (0, 0)).2 := by
  induction l generalizing i with
  | nil => simp at hi
  | cons a l ih =>
      cases i with
      | zero => rfl
      | succ i => simpa using ih i (by simpa using hi)

/-- C4: with a 2-D grid passing the normalization check,
`getLikelihoodValues` never errors -- in particular not when a level
search exhausts `max_iterations`; it then keeps the best-effort value and
its achieved confidence.  It returns one threshold and one
achieved-confidence entry per requested level, in input order: the `i`-th
recorded pair is exactly the `(value, confidence)` produced by the search
of the `i`-th level from the carried-in search state. -/
theorem c4_pairs_per_level (g : NDArray) (levels : List ℚ) (epsilon : ℚ) (m : ℕ)
    (h1 : g.shape.length = 2) (h2 : checkNormalized g.data.sum = true) :
    (getLikelihoodValues g levels epsilon m).isOk = true ∧
    (okValues (getLikelihoodValues g levels epsilon m)).length = levels.length ∧
    (okPValues (getLikelihoodValues g levels epsilon m)).length = levels.length ∧
    ∀ i, i < levels.length →
      ((okValues (getLikelihoodValues g levels epsilon m)).getD i 0,
       (okPValues (getLikelihoodValues g levels epsilon m)).getD i 0) =
        (searchLevel g.data epsilon m
          (carryAfter g.data epsilon m (levels.take i) (listMaxQ g.data, 0))
          (levels.getD i 0)).1 := by
  have hval : getLikelihoodValues g levels epsilon m =
      .ok ((runLevels g.data epsilon m levels (listMaxQ g.data, 0)).map Prod.fst,
           (runLevels g.data epsilon m levels (listMaxQ g.data, 0)).map Prod.snd) := by
    unfold getLikelihoodValues
    rw [if_pos h1, if_pos h2]
  rw [hval]
  refine ⟨rfl, ?_, ?_, ?_⟩
  · simp [okValues, runLevels_length]
  · simp [okPValues, runLevels_length]
  · intro i hi
    have hlen : i < (runLevels g.data epsilon m levels (listMaxQ g.data, 0)).length := by
      rw [runLevels_length]; exact hi
    simp only [okValues, okPValues]
    rw [getD_map_fst _ _ hlen, getD_map_snd _ _ hlen,
      runLevels_getD g.data epsilon m levels (listMaxQ g.data, 0) i hi]

/-- C4 witness: on the normalized grid `gridC2` with a single level and
the iteration budget 0 (the search gives up immediately, a soft fail) the
call still succeeds with one pair. -/
theorem c4_pairs_per_level_witness :
    (getLikelihoodValues gridC2 [1/2] (1/100) 0).isOk = true ∧
    (okValues (getLikelihoodValues gridC2 [1/2] (1/100) 0)).length = 1 :=
  ⟨(c4_pairs_per_level gridC2 [1/2] (1/100) 0 (by with_unfolding_all decide)
      (by with_unfolding_all decide)).1,
   (c4_pairs_per_level gridC2 [1/2] (1/100) 0 (by with_unfolding_all decide)
      (by with_unfolding_all decide)).2.1⟩

theorem pickAll_some (p l : List ℚ) (level : ℚ) (ns : List ℕ)
    (h : ∀ n ∈ ns, (rankPick p l level n).isSome = true) :
    ∃ out, pickAll p l level ns = some out ∧ out.length = ns.length := by
  induction ns with
  | nil => exact ⟨[], rfl, rfl⟩
  | cons n ns ih =>
      obtain ⟨v, hv⟩ := Option.isSome_iff_exists.mp (h n (List.mem_cons_self n ns))
      obtain ⟨vs, hvs, hlenvs⟩ := ih (fun x hx => h x (List.mem_cons_of_mem n hx))
      refine ⟨v :: vs, ?_, by simp [hlenvs]⟩
      unfold pickAll
      rw [hv, hvs]

/-- C6 counterexample: on a tie, `_1d_level_values` can fail.  With
likelihoods `[3, 3, 1]` and level 0.8, the two tied samples share the
truncated average rank 0, rank 1 is not achieved by any sample, and the
lookup for rank 1 (quantity 2) hits an `IndexError` instead of returning
2 parameter values. -/
theorem c6_tie_rank_skip_fails :
    _1d_level_values [0, 1, 2] [3, 3, 1] (4/5) 2 = none := by
  set_option maxRecDepth 2500 in with_unfolding_all decide

/-- C6 (amended): ranking is deterministic given input order, but scipy
average ranks truncated to int can skip integer rank values when samples
tie.  Whenever every rank `0 .. k-1` is achieved by some sample (and the
parameter array covers the needed indices), the finder returns `k`
parameter values without error -- also in the presence of ties; when a
rank below `k` is skipped, the per-rank lookup fails. -/
theorem c6_complete_ranks_return (p l : List ℚ) (level : ℚ) (q : ℕ)
    (hne : l ≠ []) (hmax : idxOfMax l < p.length) (hlen : l.length ≤ p.length)
    (hranks : ranksComplete l level q = true) :
    (_1d_level_values p l level q).isSome = true ∧
    ((_1d_level_values p l level q).getD []).length = q := by
  have hcond : ∀ n ∈ List.range q, (rankPick p l level n).isSome = true := by
    intro n hn
    rw [ranksComplete, List.all_eq_true] at hranks
    have hfind := hranks n hn
    obtain ⟨i, hi⟩ := Option.isSome_iff_exists.mp hfind
    have himem : i < l.length := List.mem_range.mp (List.mem_of_find?_eq_some hi)
    unfold rankPick
    rw [hi]
    cases hpi : p[i]? with
    | none => exact absurd (List.getElem?_eq_none_iff.mp hpi) (by omega)
    | some y => simp [hpi]
  obtain ⟨par, hpar, hparlen⟩ := pickAll_some p l level (List.range q) hcond
  have hq : par.length = q := by simpa using hparlen
  obtain ⟨parmax, hp⟩ : ∃ x, p[idxOfMax l]? = some x := by
    cases hx : p[idxOfMax l]? with
    | none => exact absurd (List.getElem?_eq_none_iff.mp hx) (by omega)
    | some x => exact ⟨x, rfl⟩
  unfold _1d_level_values
  rw [if_neg (by simp [List.isEmpty_iff, hne]), hp, hpar]
  exact ⟨rfl, by simp [sortKey, List.length_insertionSort, hq]⟩

/-- C6 witness: likelihoods `[4, 2, 2]` have a tie away from the needed
ranks: ranks 0 and 1 are both achieved, and the finder returns 2 values
without error. -/
theorem c6_complete_ranks_return_witness :
    (_1d_level_values [5, 6, 7] [4, 2, 2] (2/5) 2).isSome = true ∧
    ((_1d_level_values [5, 6, 7] [4, 2, 2] (2/5) 2).getD []).length = 2 :=
  c6_complete_ranks_return [5, 6, 7] [4, 2, 2] (2/5) 2
    (by with_unfolding_all decide) (by with_unfolding_all decide)
    (by with_unfolding_all decide)
    (by set_option maxRecDepth 2500 in with_unfolding_all decide)

theorem basicSimps_map_div_aux (h c : ℚ) :
    ∀ (n : ℕ) (l : List ℚ), l.length ≤ n →
      basicSimps h (l.map (fun y => y / c)) = basicSimps h l / c := by
  intro n
  induction n with
  | zero =>
      intro l hl
      have hnil : l = [] := List.eq_nil_of_length_eq_zero (Nat.le_zero.mp hl)
      subst hnil
      simp [basicSimps]
  | succ n ih =>
      intro l hl
      match l with
      | [] => simp [basicSimps]
      | [y] => simp [basicSimps]
      | y0 :: y1 :: rest =>
          have hr : rest.length ≤ n := by
            simp only [List.length_cons] at hl
            omega
          have hhead : (rest.map (fun y => y / c)).headD 0 = rest.headD 0 / c := by
            cases rest <;> simp
          simp only [List.map_cons, basicSimps]
          rw [ih rest hr, hhead]
          ring

theorem basicSimps_map_div (h c : ℚ) (l : List ℚ) :
    basicSimps h (l.map (fun y => y / c)) = basicSimps h l / c :=
  basicSimps_map_div_aux h c l.length l le_rfl

theorem headD_map_div (c : ℚ) (l : List ℚ) :
    (l.map (fun y => y / c)).headD 0 = l.headD 0 / c := by
  cases l <;> simp

theorem simps_map_div (ys : List ℚ) (h c : ℚ) :
    simps (ys.map (fun y => y / c)) h = simps ys h / c := by
  unfold simps
  rw [List.length_map]
  split
  · exact basicSimps_map_div h c ys
  · simp only [← List.map_dropLast, ← List.map_drop, ← List.map_reverse, ← List.map_tail,
      headD_map_div, basicSimps_map_div]
    ring

/-- C10 counterexample: the element sum of the returned marginal curve can
be 1 with grid spacing different from 1.  On `cp10` (marginal curve
`[1, 0, 1]`, range `[0, 6]`, 3 pixels, spacing 3) the Simpson integral
equals the element sum, so after normalization the element sum is 1 even
though the spacing is 3. -/
theorem c10_sum_one_spacing_three :
    (cp10.marginal pA none).isOk = true ∧
    (marginalCurveOf cp10 pA).sum = 1 ∧
    marginalSpacing cp10 pA = 3 ∧ (3 : ℚ) ≠ 1 := by
  refine ⟨?_, ?_, ?_, by norm_num⟩ <;> with_unfolding_all decide

/-- C10 (amended): `marginal` divides the summed 1-D marginal likelihood
by its Simpson-rule integral over the physical parameter range (not by
its element sum), so whenever that integral is nonzero the returned curve
is a density whose Simpson integral over the range is exactly 1; the
element sum of the returned curve is in general different from 1, and it
can equal 1 even when the grid spacing is not 1. -/
theorem c10_simpson_normalized (cp : ContourPlot) (name : String)
    (mn mx : ℚ) (npts : ℕ)
    (hk : (keysOf cp).contains name = true)
    (h0 : cp.pmin.lookup name = some mn)
    (h1 : cp.pmax.lookup name = some mx)
    (h2 : cp.pnpoints.lookup name = some npts)
    (hnz : simps (marginalAlong cp.likelihood (axisOf cp name))
        (marginalSpacing cp name) ≠ 0) :
    simps (marginalCurveOf cp name) (marginalSpacing cp name) = 1 := by
  have hs : marginalSpacing cp name =
      if npts ≤ 1 then 0 else (mx - mn) / ((npts : ℚ) - 1) := by
    unfold marginalSpacing
    rw [h0, h1, h2]
  have hc : marginalCurveOf cp name =
      (marginalAlong cp.likelihood (axisOf cp name)).map
        (fun x => x / simps (marginalAlong cp.likelihood (axisOf cp name))
          (if npts ≤ 1 then 0 else (mx - mn) / ((npts : ℚ) - 1))) := by
    unfold marginalCurveOf ContourPlot.marginal
    rw [if_pos hk, h0, h1, h2]
  rw [hc, ← hs, simps_map_div]
  exact div_self hnz

/-- C10 witness: the marginal curve of `cp10` (spacing 3) has Simpson
integral exactly 1 after normalization. -/
theorem c10_simpson_normalized_witness :
    simps (marginalCurveOf cp10 pA) (marginalSpacing cp10 pA) = 1 :=
  c10_simpson_normalized cp10 pA 0 6 3
    (by with_unfolding_all decide) (by with_unfolding_all decide)
    (by with_unfolding_all decide) (by with_unfolding_all decide)
    (by with_unfolding_all decide)
